import Mathlib

/-!
# Verification of `src/utils/audio-emotion-analyzer.py`

A shallow embedding of the audio emotion analyzer CLI script.  The script is a
linear pipeline: argument check, model load, audio load (resampled to 16 kHz),
feature extraction + forward pass + softmax over a fixed 8-way label set, and
JSON emission (success object on stdout, error objects and progress notices on
stderr, exit code 1 on any failure).

External effects (the pretrained model, librosa audio decoding, the forward
pass) are abstracted into an `Env` record of functions; the script's own logic
(argument handling, error routing, softmax normalisation, zipping scores with
labels, arg-max selection, JSON assembly) is embedded faithfully.  Real-valued
floating point is modelled over `ℚ`; the exponential used by softmax is an
arbitrary parameter `e : ℚ → ℚ`, assumed positive where a claim needs it, so
that every proved property holds for any exponential-like function.
-/

namespace AudioEmotionAnalyzer

/-- The fixed ordered emotion label sequence (`EMOTIONS` in the source). -/
def EMOTIONS : List String :=
  ["angry", "calm", "disgust", "fearful", "happy", "neutral", "sad", "surprised"]

/-- JSON values, as assembled by the `json.dumps` calls in the source.
Objects keep the insertion order of the Python dict literals. -/
inductive JVal where
  | str (s : String)
  | num (q : ℚ)
  | bool (b : Bool)
  | obj (kvs : List (String × JVal))


/-- One line written to standard error: either a progress notice
(`print(..., file=sys.stderr)` of a plain string) or a serialized JSON
error object. -/
inductive StderrLine where
  | progress (s : String)
  | errJson (j : JVal)


/-- The dict returned by `analyze_emotion` on success. -/
structure EmotionResult where
  primary : String
  confidence : ℚ
  all : List (String × ℚ)


/-- Observable outcome of one process invocation: exit code, the JSON objects
printed to stdout, and the lines printed to stderr. -/
structure ProcResult where
  exitCode : ℕ
  stdout : List JVal
  stderr : List StderrLine


/-- The external world the script runs against.
 * `args` — the command-line arguments after the program name
   (`sys.argv[1:]`; the source checks `len(sys.argv) != 2`,
   i.e. `args.length ≠ 1`).
 * `modelLoad` — outcome of `from_pretrained` for the feature extractor and
   classifier; on failure, the exception message and `traceback.format_exc()`.
 * `decodeAudio` — `librosa.load(path, sr=16000, mono=True)`: the decoded mono
   waveform already resampled to the requested 16 kHz rate, or the exception
   message.
 * `infer` — feature extraction plus the no-gradient forward pass: the logits
   row `model(inputs.input_values).logits[0]`, or the exception message.
 * `expFn` — the exponential used by `torch.nn.functional.softmax`. -/
structure Env where
  args : List String
  modelLoad : Except (String × String) Unit
  decodeAudio : String → Except String (List ℚ)
  infer : List ℚ → Except String (List ℚ)
  expFn : ℚ → ℚ

/-- `torch.nn.functional.softmax` on a logits row: each entry is
`e x / Σ e`. -/
def softmax (e : ℚ → ℚ) (logits : List ℚ) : List ℚ :=
  logits.map (fun x => e x / (logits.map e).sum)

/-- One step of Python's `max(..., key=lambda x: x[1])`: the running best is
replaced only when the new item's key is strictly greater, so the first
maximal item wins. -/
def pyMaxStep (best y : String × ℚ) : String × ℚ :=
  if best.2 < y.2 then y else best

/-- Python's `max(iterable, key=lambda x: x[1])` over the items of the score
dict: `none` models the `ValueError` raised on an empty sequence. -/
def pyMax : List (String × ℚ) → Option (String × ℚ)
  | [] => none
  | x :: xs => some (xs.foldl pyMaxStep x)

/-- `load_model`: the `try` block around `from_pretrained`; any exception is
turned into the error JSON object `{"error": ..., "traceback": ...}` printed
to stderr before `sys.exit(1)`. -/
def load_model (env : Env) : Except JVal Unit :=
  match env.modelLoad with
  | .error (m, tb) =>
      .error (.obj [("error", .str ("Failed to load model: " ++ m)),
                    ("traceback", .str tb)])
  | .ok u => .ok u

/-- `load_audio`: `librosa.load(file_path, sr=target_sr, mono=True)` with
`target_sr = 16000`, returning the waveform together with the sample rate.
librosa is modelled per its contract stated in the spec: it always resamples
to the fixed 16 kHz rate and returns that rate. Any exception becomes the
error JSON `{"error": "Failed to load audio: ..."}`. -/
def load_audio (env : Env) (file_path : String) : Except JVal (List ℚ × ℕ) :=
  match env.decodeAudio file_path with
  | .error m => .error (.obj [("error", .str ("Failed to load audio: " ++ m))])
  | .ok audio => .ok (audio, 16000)

/-- `analyze_emotion`: softmax over the logits, zip with `EMOTIONS` (silently
truncating to the shorter sequence), then Python `max` by score.  The argument
`inferred` is the outcome of feature extraction and the forward pass, which
happen inside the same `try` block; any exception, including the `ValueError`
of `max` on an empty dict, becomes the error JSON printed before
`sys.exit(1)`. -/
def analyze_emotion (e : ℚ → ℚ) (inferred : Except String (List ℚ)) :
    Except JVal EmotionResult :=
  match inferred with
  | .error m =>
      .error (.obj [("error", .str ("Failed to analyze emotion: " ++ m))])
  | .ok logits =>
    let scores := softmax e logits
    let emotion_scores := EMOTIONS.zip scores
    match pyMax emotion_scores with
    | none =>
        .error (.obj [("error", .str
          "Failed to analyze emotion: max() arg is an empty sequence")])
    | some pe => .ok ⟨pe.1, pe.2, emotion_scores⟩

/-- The usage error JSON printed when the argument count is wrong. -/
def usageErr : JVal :=
  .obj [("error", .str "Usage: audio-emotion-analyzer.py <audio_file_path>")]

/-- `main`: validates the argument count, then runs model load, audio load and
emotion analysis in sequence, writing progress notices to stderr; on success a
single JSON object goes to stdout, on any failure the error JSON goes to
stderr and the process exits with code 1. -/
def main (env : Env) : ProcResult :=
  if env.args.length ≠ 1 then
    ⟨1, [], [.errJson usageErr]⟩
  else
    let audio_file := env.args.headI
    let log1 := StderrLine.progress "Loading emotion recognition model..."
    match load_model env with
    | .error j => ⟨1, [], [log1, .errJson j]⟩
    | .ok _ =>
      let log2 := StderrLine.progress ("Loading audio file: " ++ audio_file)
      match load_audio env audio_file with
      | .error j => ⟨1, [], [log1, log2, .errJson j]⟩
      | .ok (audio, sr) =>
        let log3 := StderrLine.progress "Analyzing emotions..."
        match analyze_emotion env.expFn (env.infer audio) with
        | .error j => ⟨1, [], [log1, log2, log3, .errJson j]⟩
        | .ok r =>
            ⟨0,
             [.obj [("success", .bool true),
                    ("emotion", .obj
                      [("primary", .str r.primary),
                       ("confidence", .num r.confidence),
                       ("all", .obj (r.all.map (fun p => (p.1, JVal.num p.2))))]),
                    ("audio_duration", .num ((audio.length : ℚ) / (sr : ℚ)))]],
             [log1, log2, log3]⟩

/-! ## Helper lemmas -/

/-- The running best of `pyMaxStep` never decreases. -/
lemma le_pyMaxStep (a y : String × ℚ) : a.2 ≤ (pyMaxStep a y).2 := by
  by_cases h : a.2 < y.2 <;> simp [pyMaxStep, h]
  exact h.le

/-- The new item never exceeds the updated best of `pyMaxStep`. -/
lemma le_pyMaxStep_right (a y : String × ℚ) : y.2 ≤ (pyMaxStep a y).2 := by
  by_cases h : a.2 < y.2 <;> simp [pyMaxStep, h]
  exact le_of_not_lt h

/-- Folding `pyMaxStep` yields an upper bound of all scores seen, and that
bound's holder is the first item attaining it (Python `max` tie-breaking). -/
lemma foldl_pyMaxStep_spec :
    ∀ (xs : List (String × ℚ)) (a : String × ℚ),
      a.2 ≤ (xs.foldl pyMaxStep a).2 ∧
      (∀ p ∈ xs, p.2 ≤ (xs.foldl pyMaxStep a).2) ∧
      (a :: xs).find? (fun p => decide ((xs.foldl pyMaxStep a).2 ≤ p.2)) =
        some (xs.foldl pyMaxStep a)
  | [], a => by
      refine ⟨le_refl _, by simp, ?_⟩
      simp [List.find?]
  | y :: ys, a => by
      obtain ⟨ih1, ih2, ih3⟩ := foldl_pyMaxStep_spec ys (pyMaxStep a y)
      set b := ys.foldl pyMaxStep (pyMaxStep a y) with hb
      have hfold : (y :: ys).foldl pyMaxStep a = b := by
        simp [List.foldl, hb]
      rw [hfold]
      have ha_le : a.2 ≤ b.2 := le_trans (le_pyMaxStep a y) ih1
      have hy_le : y.2 ≤ b.2 := le_trans (le_pyMaxStep_right a y) ih1
      refine ⟨ha_le, ?_, ?_⟩
      · intro p hp
        rcases List.mem_cons.mp hp with rfl | hmem
        · exact hy_le
        · exact ih2 p hmem
      · by_cases hcase : a.2 < y.2
        · have hstep : pyMaxStep a y = y := by simp [pyMaxStep, hcase]
          rw [hstep] at ih3
          have hpa : ¬ (b.2 ≤ a.2) := not_le.mpr (lt_of_lt_of_le hcase hy_le)
          rw [List.find?_cons_of_neg _ (by simpa using hpa)]
          exact ih3
        · have hstep : pyMaxStep a y = a := by simp [pyMaxStep, hcase]
          rw [hstep] at ih3
          by_cases hpa : b.2 ≤ a.2
          · rw [List.find?_cons_of_pos _ (by simpa using hpa)] at ih3
            rw [List.find?_cons_of_pos _ (by simpa using hpa)]
            exact ih3
          · rw [List.find?_cons_of_neg _ (by simpa using hpa)] at ih3
            rw [List.find?_cons_of_neg _ (by simpa using hpa)]
            have hpy : ¬ (b.2 ≤ y.2) :=
              fun hby => hpa (le_trans hby (le_of_not_lt hcase))
            rw [List.find?_cons_of_neg _ (by simpa using hpy)]
            exact ih3

/-- `pyMax` returns an upper bound of all scores, held by the first item
attaining it. -/
lemma pyMax_spec {l : List (String × ℚ)} {b : String × ℚ}
    (h : pyMax l = some b) :
    (∀ p ∈ l, p.2 ≤ b.2) ∧
    l.find? (fun p => decide (b.2 ≤ p.2)) = some b := by
  match l with
  | [] => simp [pyMax] at h
  | x :: xs =>
    have hfold : xs.foldl pyMaxStep x = b := by
      simpa [pyMax] using h
    obtain ⟨h1, h2, h3⟩ := foldl_pyMaxStep_spec xs x
    rw [hfold] at h1 h2 h3
    refine ⟨?_, h3⟩
    intro p hp
    rcases List.mem_cons.mp hp with rfl | hmem
    · exact h1
    · exact h2 p hmem

/-- In a zip whose left list has no duplicates, an entry is determined by its
key. -/
lemma zip_key_unique {α β : Type} : ∀ (l₁ : List α) (l₂ : List β), l₁.Nodup →
    ∀ p q : α × β, p ∈ l₁.zip l₂ → q ∈ l₁.zip l₂ → p.1 = q.1 → p = q := by
  intro l₁
  induction l₁ with
  | nil => intro l₂ _ p q hp; simp at hp
  | cons a t ih =>
    intro l₂ hnd p q hp hq hkey
    cases l₂ with
    | nil => simp at hp
    | cons b t₂ =>
      rw [List.zip_cons_cons] at hp hq
      have hnd' := List.nodup_cons.mp hnd
      rcases List.mem_cons.mp hp with rfl | hp'
      · rcases List.mem_cons.mp hq with rfl | hq'
        · rfl
        · have hmem : q.1 ∈ t := (List.of_mem_zip hq').1
          rw [← hkey] at hmem
          exact absurd hmem hnd'.1
      · rcases List.mem_cons.mp hq with rfl | hq'
        · have hmem : p.1 ∈ t := (List.of_mem_zip hp').1
          rw [hkey] at hmem
          exact absurd hmem hnd'.1
        · exact ih t₂ hnd'.2 p q hp' hq' hkey

/-- Distributing a constant divisor out of a list sum. -/
lemma sum_map_div (l : List ℚ) (f : ℚ → ℚ) (c : ℚ) :
    (l.map (fun x => f x / c)).sum = (l.map f).sum / c := by
  induction l with
  | nil => simp
  | cons a t ih => simp [ih, add_div]

/-- The sum of a nonempty list of positive values is positive. -/
lemma sum_map_pos {l : List ℚ} (hl : l ≠ []) (f : ℚ → ℚ)
    (hf : ∀ x, 0 < f x) : 0 < (l.map f).sum := by
  cases l with
  | nil => exact absurd rfl hl
  | cons a t =>
    have h2 : 0 ≤ (t.map f).sum := by
      apply List.sum_nonneg
      intro x hx
      obtain ⟨y, _, rfl⟩ := List.mem_map.mp hx
      exact (hf y).le
    simpa using add_pos_of_pos_of_nonneg (hf a) h2

/-- `softmax` preserves the length of the logits row. -/
lemma softmax_length (e : ℚ → ℚ) (logits : List ℚ) :
    (softmax e logits).length = logits.length := by
  simp [softmax]

/-- With a positive exponential, `softmax` of a nonempty row sums to 1. -/
lemma softmax_sum (e : ℚ → ℚ) (logits : List ℚ) (hne : logits ≠ [])
    (hpos : ∀ x, 0 < e x) : (softmax e logits).sum = 1 := by
  unfold softmax
  rw [sum_map_div]
  exact div_self (ne_of_gt (sum_map_pos hne e hpos))

/-- With a positive exponential, every `softmax` entry lies in `[0, 1]`. -/
lemma softmax_mem_unit (e : ℚ → ℚ) (logits : List ℚ) (hpos : ∀ x, 0 < e x)
    {q : ℚ} (hq : q ∈ softmax e logits) : 0 ≤ q ∧ q ≤ 1 := by
  unfold softmax at hq
  obtain ⟨x, hx, rfl⟩ := List.mem_map.mp hq
  have hS : 0 < (logits.map e).sum :=
    sum_map_pos (List.ne_nil_of_mem hx) e hpos
  constructor
  · exact div_nonneg (hpos x).le hS.le
  · rw [div_le_one hS]
    apply List.single_le_sum
    · intro y hy
      obtain ⟨z, _, rfl⟩ := List.mem_map.mp hy
      exact (hpos z).le
    · exact List.mem_map_of_mem e hx

/-- The emotion label list has no duplicates. -/
lemma EMOTIONS_nodup : EMOTIONS.Nodup := by decide

/-- The emotion label list has 8 entries. -/
lemma EMOTIONS_length : EMOTIONS.length = 8 := by decide

/-- Successful analysis: the score dict is the zip of labels with softmax
scores, and the primary/confidence pair is the Python max of that dict. -/
lemma analyze_emotion_ok {e : ℚ → ℚ} {logits : List ℚ} {r : EmotionResult}
    (h : analyze_emotion e (Except.ok logits) = Except.ok r) :
    r.all = EMOTIONS.zip (softmax e logits) ∧
    pyMax (EMOTIONS.zip (softmax e logits)) = some (r.primary, r.confidence) := by
  simp only [analyze_emotion] at h
  cases hm : pyMax (EMOTIONS.zip (softmax e logits)) with
  | none =>
    rw [hm] at h
    exact absurd h (by simp)
  | some pe =>
    rw [hm] at h
    simp only [Except.ok.injEq] at h
    subst h
    exact ⟨rfl, rfl⟩

/-- A nonempty logits row always analyses successfully, with the score dict
being the (possibly truncated) zip of labels and softmax scores. -/
lemma analyze_emotion_ne_nil (e : ℚ → ℚ) (logits : List ℚ)
    (hne : logits ≠ []) :
    ∃ r : EmotionResult,
      analyze_emotion e (Except.ok logits) = Except.ok r ∧
      r.all = EMOTIONS.zip (softmax e logits) := by
  cases hz : EMOTIONS.zip (softmax e logits) with
  | nil =>
    exfalso
    have hlen := congrArg List.length hz
    rw [List.length_zip, softmax_length, EMOTIONS_length] at hlen
    simp only [List.length_nil] at hlen
    have : logits.length = 0 := by omega
    exact hne (List.length_eq_zero.mp this)
  | cons hd tl =>
    refine ⟨⟨(tl.foldl pyMaxStep hd).1, (tl.foldl pyMaxStep hd).2, hd :: tl⟩,
      ?_, hz ▸ rfl⟩
    simp only [analyze_emotion]
    rw [hz]
    rfl

/-- When every stage succeeds, `main` produces exit code 0, the single
success JSON object on stdout, and the three progress notices on stderr. -/
lemma main_eq_of_stages (env : Env) (audio : List ℚ) (r : EmotionResult)
    (h1 : env.args.length = 1)
    (h2 : env.modelLoad = Except.ok ())
    (h3 : env.decodeAudio env.args.headI = Except.ok audio)
    (h4 : analyze_emotion env.expFn (env.infer audio) = Except.ok r) :
    main env = ⟨0,
      [JVal.obj [("success", JVal.bool true),
                 ("emotion", JVal.obj
                   [("primary", JVal.str r.primary),
                    ("confidence", JVal.num r.confidence),
                    ("all", JVal.obj (r.all.map (fun p => (p.1, JVal.num p.2))))]),
                 ("audio_duration",
                  JVal.num ((audio.length : ℚ) / ((16000 : ℕ) : ℚ)))]],
      [StderrLine.progress "Loading emotion recognition model...",
       StderrLine.progress ("Loading audio file: " ++ env.args.headI),
       StderrLine.progress "Analyzing emotions..."]⟩ := by
  simp [main, h1, h2, h3, h4, load_model, load_audio]

/-- `main` either succeeds with exit code 0, or exits with code 1, an empty
stdout, and a JSON error object as its final stderr line. -/
lemma main_shape (env : Env) :
    (main env).exitCode = 0 ∨
    ((main env).exitCode = 1 ∧ (main env).stdout = [] ∧
     ∃ j, (main env).stderr.getLast? = some (StderrLine.errJson j)) := by
  by_cases h1 : env.args.length ≠ 1
  · right
    have hmain : main env = ⟨1, [], [.errJson usageErr]⟩ := by simp [main, h1]
    rw [hmain]
    exact ⟨rfl, rfl, usageErr, rfl⟩
  · rw [not_not] at h1
    cases hml : env.modelLoad with
    | error p =>
      right
      obtain ⟨m, tb⟩ := p
      have hmain : main env = ⟨1, [],
          [.progress "Loading emotion recognition model...",
           .errJson (.obj [("error", .str ("Failed to load model: " ++ m)),
                           ("traceback", .str tb)])]⟩ := by
        simp [main, h1, load_model, hml]
      rw [hmain]
      exact ⟨rfl, rfl, _, rfl⟩
    | ok u =>
      cases u
      cases hda : env.decodeAudio env.args.headI with
      | error m =>
        right
        have hmain : main env = ⟨1, [],
            [.progress "Loading emotion recognition model...",
             .progress ("Loading audio file: " ++ env.args.headI),
             .errJson (.obj [("error", .str ("Failed to load audio: " ++ m))])]⟩ := by
          simp [main, h1, load_model, hml, load_audio, hda]
        rw [hmain]
        exact ⟨rfl, rfl, _, rfl⟩
      | ok audio =>
        cases han : analyze_emotion env.expFn (env.infer audio) with
        | error j =>
          right
          have hmain : main env = ⟨1, [],
              [.progress "Loading emotion recognition model...",
               .progress ("Loading audio file: " ++ env.args.headI),
               .progress "Analyzing emotions...",
               .errJson j]⟩ := by
            simp [main, h1, load_model, hml, load_audio, hda, han]
          rw [hmain]
          exact ⟨rfl, rfl, j, rfl⟩
        | ok r =>
          left
          simp [main, h1, load_model, hml, load_audio, hda, han]

/-- A zero exit implies every stage succeeded, and gives the full output. -/
lemma main_success_shape (env : Env) (h : (main env).exitCode = 0) :
    ∃ (audio : List ℚ) (r : EmotionResult),
      env.args.length = 1 ∧
      env.decodeAudio env.args.headI = Except.ok audio ∧
      analyze_emotion env.expFn (env.infer audio) = Except.ok r ∧
      main env = ⟨0,
        [JVal.obj [("success", JVal.bool true),
                   ("emotion", JVal.obj
                     [("primary", JVal.str r.primary),
                      ("confidence", JVal.num r.confidence),
                      ("all", JVal.obj (r.all.map (fun p => (p.1, JVal.num p.2))))]),
                   ("audio_duration",
                    JVal.num ((audio.length : ℚ) / ((16000 : ℕ) : ℚ)))]],
        [StderrLine.progress "Loading emotion recognition model...",
         StderrLine.progress ("Loading audio file: " ++ env.args.headI),
         StderrLine.progress "Analyzing emotions..."]⟩ := by
  by_cases h1 : env.args.length ≠ 1
  · exfalso
    simp [main, h1] at h
  · rw [not_not] at h1
    cases hml : env.modelLoad with
    | error p =>
      exfalso
      obtain ⟨m, tb⟩ := p
      simp [main, h1, load_model, hml] at h
    | ok u =>
      cases u
      cases hda : env.decodeAudio env.args.headI with
      | error m =>
        exfalso
        simp [main, h1, load_model, hml, load_audio, hda] at h
      | ok audio =>
        cases han : analyze_emotion env.expFn (env.infer audio) with
        | error j =>
          exfalso
          simp [main, h1, load_model, hml, load_audio, hda, han] at h
        | ok r =>
          exact ⟨audio, r, h1, rfl, han,
            main_eq_of_stages env audio r h1 hml hda han⟩

/-! ## Concrete test data for witnesses -/

/-- The result of analysing eight equal logits under the constant
exponential: every probability is 1/8 and the tie goes to the first label. -/
def sampleResult : EmotionResult :=
  ⟨"angry", 1/8,
   [("angry", 1/8), ("calm", 1/8), ("disgust", 1/8), ("fearful", 1/8),
    ("happy", 1/8), ("neutral", 1/8), ("sad", 1/8), ("surprised", 1/8)]⟩

/-- Concrete evaluation of `analyze_emotion` on eight equal logits. -/
lemma sample_analysis :
    analyze_emotion (fun _ => 1) (Except.ok [0, 0, 0, 0, 0, 0, 0, 0]) =
      Except.ok sampleResult := by
  norm_num [analyze_emotion, softmax, pyMax, pyMaxStep, EMOTIONS, sampleResult]

/-- An environment in which every stage succeeds: one argument, model loads,
a two-sample waveform decodes, inference yields eight equal logits. -/
def sampleEnv : Env :=
  ⟨["clip.wav"], Except.ok (), fun _ => Except.ok [0, 0],
   fun _ => Except.ok [0, 0, 0, 0, 0, 0, 0, 0], fun _ => 1⟩

/-- `sampleEnv` runs to completion with exit code 0. -/
lemma sampleEnv_success : (main sampleEnv).exitCode = 0 := by
  rw [main_eq_of_stages sampleEnv [0, 0] sampleResult rfl rfl rfl
    sample_analysis]

/-- An invocation with zero command-line arguments. -/
def usageEnv : Env :=
  ⟨[], Except.ok (), fun _ => Except.ok [], fun _ => Except.ok [],
   fun _ => 1⟩

/-- An invocation whose model load raises. -/
def modelFailEnv : Env :=
  ⟨["clip.wav"], Except.error ("boom", "trace"), fun _ => Except.ok [],
   fun _ => Except.ok [], fun _ => 1⟩

/-! ## Claims -/

/-- C1: for every successful analysis, the primary field holds a label whose
probability is the maximum value of the all mapping, and confidence equals
the value the all mapping stores for that label. -/
theorem C1_primary_is_argmax (e : ℚ → ℚ) (inferred : Except String (List ℚ))
    (r : EmotionResult) (h : analyze_emotion e inferred = Except.ok r) :
    (r.primary, r.confidence) ∈ r.all ∧
    (∀ p ∈ r.all, p.2 ≤ r.confidence) ∧
    (∀ p ∈ r.all, p.1 = r.primary → p.2 = r.confidence) := by
  cases inferred with
  | error m => simp [analyze_emotion] at h
  | ok logits =>
    obtain ⟨hall, hmax⟩ := analyze_emotion_ok h
    obtain ⟨hub, hfind⟩ := pyMax_spec hmax
    have hmem : (r.primary, r.confidence) ∈ EMOTIONS.zip (softmax e logits) :=
      List.mem_of_find?_eq_some hfind
    rw [hall]
    refine ⟨hmem, hub, ?_⟩
    intro p hp hkey
    have hpq := zip_key_unique EMOTIONS (softmax e logits) EMOTIONS_nodup
      p (r.primary, r.confidence) hp hmem hkey
    rw [hpq]

/-- Witness for C1: the concrete analysis of eight equal logits. -/
theorem C1_primary_is_argmax_witness :
    analyze_emotion (fun _ => 1) (Except.ok [0, 0, 0, 0, 0, 0, 0, 0]) =
      Except.ok sampleResult ∧
    ((sampleResult.primary, sampleResult.confidence) ∈ sampleResult.all ∧
     (∀ p ∈ sampleResult.all, p.2 ≤ sampleResult.confidence) ∧
     (∀ p ∈ sampleResult.all,
        p.1 = sampleResult.primary → p.2 = sampleResult.confidence)) :=
  ⟨sample_analysis,
   C1_primary_is_argmax (fun _ => 1) (Except.ok [0, 0, 0, 0, 0, 0, 0, 0])
     sampleResult sample_analysis⟩

/-- C2: for a successful analysis of an 8-entry logits row under a positive
exponential, the all mapping holds exactly the 8 fixed labels in order, each
probability lies in `[0, 1]`, the probabilities are the softmax of the
logits, and they sum to 1. -/
theorem C2_all_is_softmax_distribution (e : ℚ → ℚ) (logits : List ℚ)
    (r : EmotionResult) (hpos : ∀ x, 0 < e x) (hlen : logits.length = 8)
    (h : analyze_emotion e (Except.ok logits) = Except.ok r) :
    r.all.map Prod.fst = EMOTIONS ∧
    (∀ p ∈ r.all, 0 ≤ p.2 ∧ p.2 ≤ 1) ∧
    r.all.map Prod.snd = softmax e logits ∧
    (r.all.map Prod.snd).sum = 1 := by
  obtain ⟨hall, -⟩ := analyze_emotion_ok h
  have hslen : (softmax e logits).length = 8 := by
    rw [softmax_length, hlen]
  have hne : logits ≠ [] := by
    intro hnil
    rw [hnil] at hlen
    simp at hlen
  have hsnd : (EMOTIONS.zip (softmax e logits)).map Prod.snd =
      softmax e logits := by
    apply List.map_snd_zip
    rw [hslen, EMOTIONS_length]
  rw [hall]
  refine ⟨?_, ?_, hsnd, ?_⟩
  · apply List.map_fst_zip
    rw [hslen, EMOTIONS_length]
  · intro p hp
    exact softmax_mem_unit e logits hpos (List.of_mem_zip hp).2
  · rw [hsnd]
    exact softmax_sum e logits hne hpos

/-- Witness for C2: eight equal logits under the constant exponential. -/
theorem C2_all_is_softmax_distribution_witness :
    (∀ x : ℚ, 0 < (fun _ : ℚ => (1 : ℚ)) x) ∧
    ([(0 : ℚ), 0, 0, 0, 0, 0, 0, 0].length = 8) ∧
    analyze_emotion (fun _ => 1) (Except.ok [0, 0, 0, 0, 0, 0, 0, 0]) =
      Except.ok sampleResult ∧
    (sampleResult.all.map Prod.fst = EMOTIONS ∧
     (∀ p ∈ sampleResult.all, 0 ≤ p.2 ∧ p.2 ≤ 1) ∧
     sampleResult.all.map Prod.snd = softmax (fun _ => 1) [0, 0, 0, 0, 0, 0, 0, 0] ∧
     (sampleResult.all.map Prod.snd).sum = 1) :=
  ⟨fun _ => one_pos, rfl, sample_analysis,
   C2_all_is_softmax_distribution (fun _ => 1) [0, 0, 0, 0, 0, 0, 0, 0]
     sampleResult (fun _ => one_pos) rfl sample_analysis⟩

/-- C3 counterexample: the empty logits row has length different from 8, yet
`analyze_emotion` does not return a result there — Python `max` raises on
the empty score dict and the error path is taken instead. -/
theorem C3_counterexample :
    ([] : List ℚ).length ≠ 8 ∧
    analyze_emotion (fun _ => 1) (Except.ok ([] : List ℚ)) =
      Except.error (JVal.obj [("error", JVal.str
        "Failed to analyze emotion: max() arg is an empty sequence")]) :=
  ⟨by decide, rfl⟩

/-- C3 (amended): for every nonempty logits row whose length differs from 8,
`analyze_emotion` raises no error and still returns a result; the zip with
the label list silently truncates the score dict to the shorter of the two
sequences.  (Only the empty row errors, via `max` on an empty dict.) -/
theorem C3_zip_truncates (e : ℚ → ℚ) (logits : List ℚ)
    (hne : logits ≠ []) (_hlen : logits.length ≠ 8) :
    ∃ r : EmotionResult,
      analyze_emotion e (Except.ok logits) = Except.ok r ∧
      r.all = EMOTIONS.zip (softmax e logits) ∧
      r.all.length = min EMOTIONS.length logits.length := by
  obtain ⟨r, hok, hall⟩ := analyze_emotion_ne_nil e logits hne
  refine ⟨r, hok, hall, ?_⟩
  rw [hall, List.length_zip, softmax_length]

/-- Witness for C3 (amended): a three-entry logits row. -/
theorem C3_zip_truncates_witness :
    (([1, 2, 3] : List ℚ) ≠ []) ∧
    (([1, 2, 3] : List ℚ).length ≠ 8) ∧
    ∃ r : EmotionResult,
      analyze_emotion (fun _ => 1) (Except.ok [1, 2, 3]) = Except.ok r ∧
      r.all = EMOTIONS.zip (softmax (fun _ => 1) [1, 2, 3]) ∧
      r.all.length = min EMOTIONS.length ([1, 2, 3] : List ℚ).length :=
  ⟨by simp, by simp,
   C3_zip_truncates (fun _ => 1) [1, 2, 3] (by simp) (by simp)⟩

/-- C4: on every successful run, `load_audio` returns the fixed 16000 sample
rate, and the audio_duration field of the stdout JSON equals the waveform
sample count divided by 16000. -/
theorem C4_audio_duration (env : Env) (h : (main env).exitCode = 0) :
    ∃ audio : List ℚ,
      load_audio env env.args.headI = Except.ok (audio, 16000) ∧
      ∃ r : EmotionResult,
        (main env).stdout =
          [JVal.obj [("success", JVal.bool true),
                     ("emotion", JVal.obj
                       [("primary", JVal.str r.primary),
                        ("confidence", JVal.num r.confidence),
                        ("all", JVal.obj
                          (r.all.map (fun p => (p.1, JVal.num p.2))))]),
                     ("audio_duration",
                      JVal.num ((audio.length : ℚ) / 16000))]] := by
  obtain ⟨audio, r, h1, hda, han, hmain⟩ := main_success_shape env h
  refine ⟨audio, by simp [load_audio, hda], r, ?_⟩
  rw [hmain]
  norm_num

/-- Witness for C4: the fully successful sample environment. -/
theorem C4_audio_duration_witness :
    (main sampleEnv).exitCode = 0 ∧
    ∃ audio : List ℚ,
      load_audio sampleEnv sampleEnv.args.headI = Except.ok (audio, 16000) ∧
      ∃ r : EmotionResult,
        (main sampleEnv).stdout =
          [JVal.obj [("success", JVal.bool true),
                     ("emotion", JVal.obj
                       [("primary", JVal.str r.primary),
                        ("confidence", JVal.num r.confidence),
                        ("all", JVal.obj
                          (r.all.map (fun p => (p.1, JVal.num p.2))))]),
                     ("audio_duration",
                      JVal.num ((audio.length : ℚ) / 16000))]] :=
  ⟨sampleEnv_success, C4_audio_duration sampleEnv sampleEnv_success⟩

/-- C5: invoked with an argument count other than one, the process exits
with code 1, prints the JSON usage-error object to standard error, and
produces nothing on standard output. -/
theorem C5_usage_error (env : Env) (h : env.args.length ≠ 1) :
    main env = ⟨1, [], [StderrLine.errJson usageErr]⟩ := by
  simp [main, h]

/-- Witness for C5: an invocation with zero arguments. -/
theorem C5_usage_error_witness :
    usageEnv.args.length ≠ 1 ∧
    main usageEnv = ⟨1, [], [StderrLine.errJson usageErr]⟩ :=
  ⟨by decide, C5_usage_error usageEnv (by decide)⟩

/-- C6: every failure class is handled identically: the run either succeeds
with exit code 0, or it terminates with exit code 1, an empty stdout (no
partial results), and a JSON error object as the last line on stderr. -/
theorem C6_uniform_failure_handling (env : Env) :
    (main env).exitCode = 0 ∨
    ((main env).exitCode = 1 ∧ (main env).stdout = [] ∧
     ∃ j, (main env).stderr.getLast? = some (StderrLine.errJson j)) :=
  main_shape env

/-- C7: for a run in which every stage succeeds, stdout is a single JSON
object whose keys are exactly success, emotion, audio_duration, in that
order, with success set to true. -/
theorem C7_success_json_keys (env : Env) (audio logits : List ℚ)
    (h1 : env.args.length = 1)
    (h2 : env.modelLoad = Except.ok ())
    (h3 : env.decodeAudio env.args.headI = Except.ok audio)
    (h4 : env.infer audio = Except.ok logits)
    (h5 : logits ≠ []) :
    ∃ kvs : List (String × JVal),
      (main env).stdout = [JVal.obj kvs] ∧
      kvs.map Prod.fst = ["success", "emotion", "audio_duration"] ∧
      kvs.head? = some ("success", JVal.bool true) := by
  obtain ⟨r, han, -⟩ := analyze_emotion_ne_nil env.expFn logits h5
  have han' : analyze_emotion env.expFn (env.infer audio) = Except.ok r := by
    rw [h4]
    exact han
  rw [main_eq_of_stages env audio r h1 h2 h3 han']
  exact ⟨_, rfl, rfl, rfl⟩

/-- Witness for C7: the fully successful sample environment. -/
theorem C7_success_json_keys_witness :
    sampleEnv.args.length = 1 ∧
    sampleEnv.modelLoad = Except.ok () ∧
    sampleEnv.decodeAudio sampleEnv.args.headI = Except.ok [0, 0] ∧
    sampleEnv.infer [0, 0] = Except.ok [0, 0, 0, 0, 0, 0, 0, 0] ∧
    ([(0 : ℚ), 0, 0, 0, 0, 0, 0, 0] ≠ []) ∧
    ∃ kvs : List (String × JVal),
      (main sampleEnv).stdout = [JVal.obj kvs] ∧
      kvs.map Prod.fst = ["success", "emotion", "audio_duration"] ∧
      kvs.head? = some ("success", JVal.bool true) :=
  ⟨rfl, rfl, rfl, rfl, by simp,
   C7_success_json_keys sampleEnv [0, 0] [0, 0, 0, 0, 0, 0, 0, 0]
     rfl rfl rfl rfl (by simp)⟩

/-- C8: whenever model loading fails, the JSON object written to stderr
holds both the error message string and the traceback string, and the
process exits with a non-zero status. -/
theorem C8_model_load_error_json (env : Env) (m tb : String)
    (h1 : env.args.length = 1)
    (h2 : env.modelLoad = Except.error (m, tb)) :
    (main env).exitCode ≠ 0 ∧
    StderrLine.errJson (JVal.obj
      [("error", JVal.str ("Failed to load model: " ++ m)),
       ("traceback", JVal.str tb)]) ∈ (main env).stderr := by
  have hmain : main env = ⟨1, [],
      [.progress "Loading emotion recognition model...",
       .errJson (.obj [("error", .str ("Failed to load model: " ++ m)),
                       ("traceback", .str tb)])]⟩ := by
    simp [main, h1, load_model, h2]
  rw [hmain]
  exact ⟨by simp, by simp⟩

/-- Witness for C8: a failing model load with a concrete message and
traceback. -/
theorem C8_model_load_error_json_witness :
    modelFailEnv.args.length = 1 ∧
    modelFailEnv.modelLoad = Except.error ("boom", "trace") ∧
    ((main modelFailEnv).exitCode ≠ 0 ∧
     StderrLine.errJson (JVal.obj
       [("error", JVal.str ("Failed to load model: " ++ "boom")),
        ("traceback", JVal.str "trace")]) ∈ (main modelFailEnv).stderr) :=
  ⟨rfl, rfl, C8_model_load_error_json modelFailEnv "boom" "trace" rfl rfl⟩

/-- C9: tie-breaking is deterministic by label order: the primary emotion is
the first entry of the insertion-ordered score dict whose probability
attains the maximum. -/
theorem C9_tiebreak_first_max (e : ℚ → ℚ) (inferred : Except String (List ℚ))
    (r : EmotionResult) (h : analyze_emotion e inferred = Except.ok r) :
    (∀ p ∈ r.all, p.2 ≤ r.confidence) ∧
    r.all.find? (fun p => decide (r.confidence ≤ p.2)) =
      some (r.primary, r.confidence) := by
  cases inferred with
  | error m => simp [analyze_emotion] at h
  | ok logits =>
    obtain ⟨hall, hmax⟩ := analyze_emotion_ok h
    rw [hall]
    exact pyMax_spec hmax

/-- Witness for C9: an 8-way tie resolves to the first label, angry. -/
theorem C9_tiebreak_first_max_witness :
    analyze_emotion (fun _ => 1) (Except.ok [0, 0, 0, 0, 0, 0, 0, 0]) =
      Except.ok sampleResult ∧
    ((∀ p ∈ sampleResult.all, p.2 ≤ sampleResult.confidence) ∧
     sampleResult.all.find? (fun p => decide (sampleResult.confidence ≤ p.2)) =
       some (sampleResult.primary, sampleResult.confidence)) :=
  ⟨sample_analysis,
   C9_tiebreak_first_max (fun _ => 1) (Except.ok [0, 0, 0, 0, 0, 0, 0, 0])
     sampleResult sample_analysis⟩

/-- C10: on every failure path, nothing is written to standard output:
stdout is empty whenever the exit code is non-zero. -/
theorem C10_empty_stdout_on_failure (env : Env)
    (h : (main env).exitCode ≠ 0) : (main env).stdout = [] := by
  rcases main_shape env with h0 | ⟨-, hempty, -⟩
  · exact absurd h0 h
  · exact hempty

/-- Witness for C10: the zero-argument invocation fails with empty stdout. -/
theorem C10_empty_stdout_on_failure_witness :
    (main usageEnv).exitCode ≠ 0 ∧ (main usageEnv).stdout = [] :=
  ⟨by decide, C10_empty_stdout_on_failure usageEnv (by decide)⟩

end AudioEmotionAnalyzer
